import Mathlib

/-
Shallow embedding of `source/Derivatives_old.py` (class `Derivatives`).

Modelling conventions:
- Python floats are modelled as exact rationals (ℚ); `x / 0` uses ℚ's total
  division (the claims considered all carry nonzero-denominator hypotheses,
  under which the Python behaviour and the ℚ behaviour coincide).
- A numpy N×N matrix is a total function ℕ → ℕ → ℚ that is 0 outside the
  index square; single-cell and whole-row assignments at computed (possibly
  negative) indices go through `pyIdx`, which reproduces numpy indexing:
  indices in [-n, n) are valid, negative indices wrap, anything else raises.
- Failures (the `assert` on the log factor, out-of-range indexing) are the
  two constructors of `DerivErr`; a construction that raises returns
  `Except.error`.
- The interior double loops of the five builders write every cell of the
  matrix exactly once (the final `else` branch writes 0.0), always at
  in-range indices drawn from `range(n)`, so they are embedded directly as
  the total entry functions `*_interior`; the subsequent boundary fix-ups,
  which can go out of range for small n, are embedded as explicit ordered
  write lists executed by `applyWrites` / `zeroRows`.
-/

namespace Engrenage

/-- Run-time failures of the construction: the `assert` in `__init__`
(message "log factor not constant in r vector") and out-of-range numpy
indexing. -/
inductive DerivErr where
  | configurationError
  | indexError
deriving DecidableEq

/-- An N×N numpy matrix of floats, as a total function (0 outside the
square). -/
def Mat : Type := ℕ → ℕ → ℚ

/-- The all-zeros matrix, `np.zeros([n, n])`. -/
def Mat.zero : Mat := fun _ _ => 0

/-- Single-cell assignment `M[a, b] = v` (at already-resolved indices). -/
def Mat.set (M : Mat) (a b : ℕ) (v : ℚ) : Mat :=
  fun i j => if i = a ∧ j = b then v else M i j

/-- Whole-row assignment `M[a, :] = 0.0` (at an already-resolved row). -/
def Mat.zeroRow (M : Mat) (a : ℕ) : Mat :=
  fun i j => if i = a then 0 else M i j

/-- numpy index resolution on an axis of length n: an index in [0, n) is
used as is, an index in [-n, 0) wraps by +n, anything else raises
IndexError. -/
def pyIdx (n : ℕ) (i : ℤ) : Option ℕ :=
  if 0 ≤ i ∧ i < (n : ℤ) then some i.toNat
  else if -(n : ℤ) ≤ i ∧ i < 0 then some (i + n).toNat
  else none

/-- Checked vector read `xs[i]` with numpy index semantics. -/
def vget (xs : List ℚ) (i : ℤ) : Except DerivErr ℚ :=
  match pyIdx xs.length i with
  | some k => .ok (xs.getD k 0)
  | none => .error .indexError

/-- Execute a list of single-cell assignments `M[i, j] = v` in order; the
first out-of-range index raises. -/
def applyWrites (n : ℕ) (M : Mat) : List (ℤ × ℤ × ℚ) → Except DerivErr Mat
  | [] => .ok M
  | (i, j, v) :: ws =>
    match pyIdx n i, pyIdx n j with
    | some a, some b => applyWrites n (M.set a b v) ws
    | _, _ => .error .indexError

/-- Pure counterpart of `applyWrites` (skips invalid writes); agrees with
`applyWrites` whenever every index is valid. -/
def wfold (n : ℕ) (M : Mat) : List (ℤ × ℤ × ℚ) → Mat
  | [] => M
  | (i, j, v) :: ws =>
    match pyIdx n i, pyIdx n j with
    | some a, some b => wfold n (M.set a b v) ws
    | _, _ => wfold n M ws

/-- Execute a list of whole-row zero assignments `M[i, :] = 0.0` in order. -/
def zeroRows (n : ℕ) (M : Mat) : List ℤ → Except DerivErr Mat
  | [] => .ok M
  | i :: is =>
    match pyIdx n i with
    | some a => zeroRows n (M.zeroRow a) is
    | none => .error .indexError

/-- Pure counterpart of `zeroRows`. -/
def zfold (n : ℕ) (M : Mat) : List ℤ → Mat
  | [] => M
  | i :: is =>
    match pyIdx n i with
    | some a => zfold n (M.zeroRow a) is
    | none => zfold n M is

/-- Modelled from the spec: `num_ghosts` is imported from
`source.uservariables`, a module that is not among the sources; the class
docstring and the spec's glossary fix it at 3 ("This code assumes 3 ghost
cells by default"). -/
def num_ghosts : ℕ := 3

/-- `calculate_useful_values`: centered first-derivative stencil
`[Am2, Am1, A0, Ap1, Ap2]` as a function of the log factor c. -/
def d1_stencil (c : ℚ) : List ℚ :=
  let c2 := c * c
  let c4 := c2 * c2
  let c8 := c4 * c4
  let oneplusc := 1 + c
  let oneplusc2 := 1 + c2
  let onepluscplusc2 := 1 + c + c * c
  let Ap2 := -1 / (c2 * oneplusc * oneplusc2 * onepluscplusc2)
  let Ap1 := oneplusc / (c2 * onepluscplusc2)
  let A0 := 2 * (c - 1) / c
  let Am1 := -c4 * Ap1
  let Am2 := -c8 * Ap2
  [Am2, Am1, A0, Ap1, Ap2]

/-- `calculate_useful_values`: centered second-derivative stencil
`[Bm2, Bm1, B0, Bp1, Bp2]`. -/
def d2_stencil (c : ℚ) : List ℚ :=
  let c2 := c * c
  let c3 := c2 * c
  let c4 := c2 * c2
  let c7 := c3 * c4
  let oneplusc := 1 + c
  let oneplusc2 := 1 + c2
  let onepluscplusc2 := 1 + c + c * c
  let Bp2 := 2 * (1 - 2 * c2) / (c3 * oneplusc * oneplusc * oneplusc2 * onepluscplusc2)
  let Bp1 := 2 * (2 * c - 1) * oneplusc / (c3 * onepluscplusc2)
  let B0 := 2 * (1 - c - 5 * c2 - c3 + c4) / (c2 * oneplusc * oneplusc)
  let Bm1 := 2 * (2 - c) * c * oneplusc / onepluscplusc2
  let Bm2 := 2 * c7 * (c2 - 2) / (c2 * oneplusc * oneplusc * oneplusc2 * onepluscplusc2)
  [Bm2, Bm1, B0, Bp1, Bp2]

/-- `calculate_useful_values`: one-sided (right) first derivative
`[C0, Cp1, Cp2, Cp3]`. -/
def advec_d1_stencil_right (c : ℚ) : List ℚ :=
  let c2 := c * c
  let c3 := c2 * c
  let c4 := c2 * c2
  let oneplusc := 1 + c
  let onepluscplusc2 := 1 + c + c * c
  let Cp3 := 1 / c4 / onepluscplusc2
  let Cp2 := -onepluscplusc2 / c4 / oneplusc
  let Cp1 := onepluscplusc2 / c3
  let C0 := -(c3 + 3 * c2 + 4 * c + 3) / c / (c3 + 2 * c2 + 2 * c + 1)
  [C0, Cp1, Cp2, Cp3]

/-- `calculate_useful_values`: one-sided (left) first derivative
`[Dm3, Dm2, Dm1, D0]`. -/
def advec_d1_stencil_left (c : ℚ) : List ℚ :=
  let c2 := c * c
  let c3 := c2 * c
  let c5 := c2 * c3
  let oneplusc := 1 + c
  let onepluscplusc2 := 1 + c + c * c
  let D0 := (3 * c3 + 4 * c2 + 3 * c + 1) / (c3 + 2 * c2 + 2 * c + 1)
  let Dm1 := -onepluscplusc2
  let Dm2 := c2 * onepluscplusc2 / oneplusc
  let Dm3 := -c5 / onepluscplusc2
  [Dm3, Dm2, Dm1, D0]

/-- `calculate_useful_values`: one-sided (right) second derivative
`[E0, Ep1, Ep2, Ep3]`. -/
def advec_d2_stencil_right (c : ℚ) : List ℚ :=
  let c2 := c * c
  let c3 := c2 * c
  let c4 := c2 * c2
  let c5 := c2 * c3
  let oneplusc := 1 + c
  let onepluscplusc2 := 1 + c + c * c
  let Ep3 := -2 * (c + 2) / c5 / onepluscplusc2 / oneplusc
  let Ep2 := 2 * (onepluscplusc2 + 1) / c5 / oneplusc
  let Ep1 := -2 * (c2 + 2 * c + 2) / c4 / oneplusc
  let E0 := 2 * (c2 + 2 * c + 3) / c2 / onepluscplusc2 / oneplusc
  [E0, Ep1, Ep2, Ep3]

/-- `calculate_useful_values`: one-sided (left) second derivative
`[Fm3, Fm2, Fm1, F0]`. -/
def advec_d2_stencil_left (c : ℚ) : List ℚ :=
  let c2 := c * c
  let c3 := c2 * c
  let c5 := c2 * c3
  let oneplusc := 1 + c
  let onepluscplusc2 := 1 + c + c * c
  let F0 := 2 * c * (3 * c2 + 2 * c + 1) / oneplusc / onepluscplusc2
  let Fm1 := -2 * c * (2 * c2 + 2 * c + 1) / oneplusc
  let Fm2 := 2 * c2 * (2 * c2 + c + 1) / oneplusc
  let Fm3 := -2 * c5 * (2 * c + 1) / oneplusc / onepluscplusc2
  [Fm3, Fm2, Fm1, F0]

/-- `calculate_useful_values`: Kreiss-Oliger dissipation stencil
`[Gm3, Gm2, Gm1, G0, Gp1, Gp2, Gp3]`.  The `Gm3` line reproduces the
source expression `720. / c6*c6 / ...` verbatim (division and
multiplication left-associated). -/
def dissipation_derivative_stencil (c : ℚ) : List ℚ :=
  let c2 := c * c
  let c3 := c2 * c
  let c4 := c2 * c2
  let c6 := c3 * c3
  let c7 := c3 * c4
  let oneplusc := 1 + c
  let onepluscplusc2 := 1 + c + c * c
  let onepluscplusc2plusc3 := 1 + c + c * c + c * c * c
  let onepluscplusc2plusc3plusc4 := 1 + c + c * c + c * c * c + c * c * c * c
  let onepluscplusc2plusc3plusc4plusc5 :=
    1 + c + c * c + c * c * c + c * c * c * c + c * c * c * c * c
  let Gp3 := 720 / c3 / onepluscplusc2plusc3plusc4plusc5 /
    onepluscplusc2plusc3plusc4 / onepluscplusc2plusc3 / onepluscplusc2 / oneplusc
  let Gp2 := -(720 / c3 /
    onepluscplusc2plusc3plusc4 / onepluscplusc2plusc3 / onepluscplusc2 / oneplusc)
  let Gp1 := 720 / c2 / onepluscplusc2plusc3 / onepluscplusc2 / oneplusc / oneplusc
  let G0 := -(720 / onepluscplusc2 / onepluscplusc2 / oneplusc / oneplusc)
  let Gm1 := 720 / c3 / onepluscplusc2plusc3 / onepluscplusc2 / oneplusc / oneplusc
  let Gm2 := -(720 / c7 /
    onepluscplusc2plusc3plusc4 / onepluscplusc2plusc3 / onepluscplusc2 / oneplusc)
  let Gm3 := 720 / c6 * c6 / onepluscplusc2plusc3plusc4plusc5 /
    onepluscplusc2plusc3plusc4 / onepluscplusc2plusc3 / onepluscplusc2 / oneplusc
  [Gm3, Gm2, Gm1, G0, Gp1, Gp2, Gp3]

/-- Interior double loop of `get_first_derivative_matrix`: every cell of
the n×n matrix is written, band cells from `d1_stencil` scaled by the
row's `1/dr[i]`, all others 0. -/
def d1_interior (dr : List ℚ) (n : ℕ) (c : ℚ) : Mat :=
  fun i j =>
    if i < n ∧ j < n then
      let s := d1_stencil c
      let one_over_h := 1 / dr.getD i 0
      if i = j + 2 then s.getD 0 0 * one_over_h
      else if i = j + 1 then s.getD 1 0 * one_over_h
      else if i = j then s.getD 2 0 * one_over_h
      else if i + 1 = j then s.getD 3 0 * one_over_h
      else if i + 2 = j then s.getD 4 0 * one_over_h
      else 0
    else 0

/-- Interior double loop of `get_second_derivative_matrix` (scaling
`1/dr[i]^2`). -/
def d2_interior (dr : List ℚ) (n : ℕ) (c : ℚ) : Mat :=
  fun i j =>
    if i < n ∧ j < n then
      let s := d2_stencil c
      let h := dr.getD i 0
      let one_over_h2 := 1 / (h * h)
      if i = j + 2 then s.getD 0 0 * one_over_h2
      else if i = j + 1 then s.getD 1 0 * one_over_h2
      else if i = j then s.getD 2 0 * one_over_h2
      else if i + 1 = j then s.getD 3 0 * one_over_h2
      else if i + 2 = j then s.getD 4 0 * one_over_h2
      else 0
    else 0

/-- Interior double loop of `get_left_advection_derivative_matrix`. -/
def advec_left_interior (dr : List ℚ) (n : ℕ) (c : ℚ) : Mat :=
  fun i j =>
    if i < n ∧ j < n then
      let s := advec_d1_stencil_left c
      let one_over_h := 1 / dr.getD i 0
      if i = j + 3 then s.getD 0 0 * one_over_h
      else if i = j + 2 then s.getD 1 0 * one_over_h
      else if i = j + 1 then s.getD 2 0 * one_over_h
      else if i = j then s.getD 3 0 * one_over_h
      else 0
    else 0

/-- Interior double loop of `get_right_advection_derivative_matrix`. -/
def advec_right_interior (dr : List ℚ) (n : ℕ) (c : ℚ) : Mat :=
  fun i j =>
    if i < n ∧ j < n then
      let s := advec_d1_stencil_right c
      let one_over_h := 1 / dr.getD i 0
      if i = j then s.getD 0 0 * one_over_h
      else if i + 1 = j then s.getD 1 0 * one_over_h
      else if i + 2 = j then s.getD 2 0 * one_over_h
      else if i + 3 = j then s.getD 3 0 * one_over_h
      else 0
    else 0

/-- Interior double loop of `get_dissipation_derivative_matrix`; `drg` is
the value read from `dr_vector[num_ghosts]`, and the scaling is
`(dr[num_ghosts]/h)**6.0 / 64.0`. -/
def diss_interior (dr : List ℚ) (n : ℕ) (c : ℚ) (drg : ℚ) : Mat :=
  fun i j =>
    if i < n ∧ j < n then
      let s := dissipation_derivative_stencil c
      let h := dr.getD i 0
      let one_over_h6 := (drg / h) ^ 6 / 64
      if i = j + 3 then s.getD 0 0 * one_over_h6
      else if i = j + 2 then s.getD 1 0 * one_over_h6
      else if i = j + 1 then s.getD 2 0 * one_over_h6
      else if i = j then s.getD 3 0 * one_over_h6
      else if i + 1 = j then s.getD 4 0 * one_over_h6
      else if i + 2 = j then s.getD 5 0 * one_over_h6
      else if i + 3 = j then s.getD 6 0 * one_over_h6
      else 0
    else 0

/-- The boundary fix-up writes of `get_first_derivative_matrix` (lines
80-97), in program order.  `one_over_h` is the value the Python local of
that name holds when these loops run: the STALE `1.0 / dr_vector[n-1]`
left over from the last interior iteration (it is not recomputed per
boundary row). -/
def d1_boundary_writes (n : ℕ) (one_over_h : ℚ) (c : ℚ) : List (ℤ × ℤ × ℚ) :=
  let sR := advec_d1_stencil_right c
  let sL := advec_d1_stencil_left c
  [ (0, 0, sR.getD 0 0 * one_over_h),
    (0, 1, sR.getD 1 0 * one_over_h),
    (0, 2, sR.getD 2 0 * one_over_h),
    (0, 3, sR.getD 3 0 * one_over_h),
    (1, 0, 0),
    (1, 1, sR.getD 0 0 * one_over_h),
    (1, 2, sR.getD 1 0 * one_over_h),
    (1, 3, sR.getD 2 0 * one_over_h),
    (1, 4, sR.getD 3 0 * one_over_h),
    ((n : ℤ) - 2, (n : ℤ) - 5, sL.getD 0 0 * one_over_h),
    ((n : ℤ) - 2, (n : ℤ) - 4, sL.getD 1 0 * one_over_h),
    ((n : ℤ) - 2, (n : ℤ) - 3, sL.getD 2 0 * one_over_h),
    ((n : ℤ) - 2, (n : ℤ) - 2, sL.getD 3 0 * one_over_h),
    ((n : ℤ) - 2, (n : ℤ) - 1, 0),
    ((n : ℤ) - 1, (n : ℤ) - 4, sL.getD 0 0 * one_over_h),
    ((n : ℤ) - 1, (n : ℤ) - 3, sL.getD 1 0 * one_over_h),
    ((n : ℤ) - 1, (n : ℤ) - 2, sL.getD 2 0 * one_over_h),
    ((n : ℤ) - 1, (n : ℤ) - 1, sL.getD 3 0 * one_over_h) ]

/-- The boundary fix-up writes of `get_second_derivative_matrix` (lines
132-149); `one_over_h2` is likewise the stale `1.0 / dr_vector[n-1]^2`. -/
def d2_boundary_writes (n : ℕ) (one_over_h2 : ℚ) (c : ℚ) : List (ℤ × ℤ × ℚ) :=
  let sR := advec_d2_stencil_right c
  let sL := advec_d2_stencil_left c
  [ (0, 0, sR.getD 0 0 * one_over_h2),
    (0, 1, sR.getD 1 0 * one_over_h2),
    (0, 2, sR.getD 2 0 * one_over_h2),
    (0, 3, sR.getD 3 0 * one_over_h2),
    (1, 0, 0),
    (1, 1, sR.getD 0 0 * one_over_h2),
    (1, 2, sR.getD 1 0 * one_over_h2),
    (1, 3, sR.getD 2 0 * one_over_h2),
    (1, 4, sR.getD 3 0 * one_over_h2),
    ((n : ℤ) - 2, (n : ℤ) - 5, sL.getD 0 0 * one_over_h2),
    ((n : ℤ) - 2, (n : ℤ) - 4, sL.getD 1 0 * one_over_h2),
    ((n : ℤ) - 2, (n : ℤ) - 3, sL.getD 2 0 * one_over_h2),
    ((n : ℤ) - 2, (n : ℤ) - 2, sL.getD 3 0 * one_over_h2),
    ((n : ℤ) - 2, (n : ℤ) - 1, 0),
    ((n : ℤ) - 1, (n : ℤ) - 4, sL.getD 0 0 * one_over_h2),
    ((n : ℤ) - 1, (n : ℤ) - 3, sL.getD 1 0 * one_over_h2),
    ((n : ℤ) - 1, (n : ℤ) - 2, sL.getD 2 0 * one_over_h2),
    ((n : ℤ) - 1, (n : ℤ) - 1, sL.getD 3 0 * one_over_h2) ]

/-- `get_first_derivative_matrix`: interior band then one-sided boundary
fix-ups.  The read of `dr_vector[n-1]` reproduces the last interior
iteration's assignment to `one_over_h`, whose stale value the boundary
loops reuse. -/
def get_first_derivative_matrix (dr : List ℚ) (n : ℕ) (c : ℚ) :
    Except DerivErr Mat := do
  let hlast ← vget dr ((n : ℤ) - 1)
  applyWrites n (d1_interior dr n c) (d1_boundary_writes n (1 / hlast) c)

/-- `get_second_derivative_matrix`. -/
def get_second_derivative_matrix (dr : List ℚ) (n : ℕ) (c : ℚ) :
    Except DerivErr Mat := do
  let hlast ← vget dr ((n : ℤ) - 1)
  applyWrites n (d2_interior dr n c) (d2_boundary_writes n (1 / (hlast * hlast)) c)

/-- `get_left_advection_derivative_matrix`: interior band, then rows 0, 1,
2 zeroed. -/
def get_left_advection_derivative_matrix (dr : List ℚ) (n : ℕ) (c : ℚ) :
    Except DerivErr Mat :=
  zeroRows n (advec_left_interior dr n c) [0, 1, 2]

/-- `get_right_advection_derivative_matrix`: interior band, then rows n-3,
n-2, n-1 zeroed. -/
def get_right_advection_derivative_matrix (dr : List ℚ) (n : ℕ) (c : ℚ) :
    Except DerivErr Mat :=
  zeroRows n (advec_right_interior dr n c)
    [(n : ℤ) - 3, (n : ℤ) - 2, (n : ℤ) - 1]

/-- `get_dissipation_derivative_matrix`: the loop body reads
`dr_vector[num_ghosts]` (raising if out of range), fills the 7-point band,
then rows 0, 1, 2 and n-3, n-2, n-1 are zeroed. -/
def get_dissipation_derivative_matrix (dr : List ℚ) (n : ℕ) (c : ℚ) :
    Except DerivErr Mat := do
  let drg ← vget dr (num_ghosts : ℤ)
  zeroRows n (diss_interior dr n c drg)
    [0, 1, 2, (n : ℤ) - 3, (n : ℤ) - 2, (n : ℤ) - 1]

/-- The five matrices held by a constructed `Derivatives` object. -/
structure DerivSet where
  d1_matrix : Mat
  d2_matrix : Mat
  d_advec_matrix_left : Mat
  d_advec_matrix_right : Mat
  d_dissipation_matrix : Mat

instance : Inhabited DerivSet :=
  ⟨⟨Mat.zero, Mat.zero, Mat.zero, Mat.zero, Mat.zero⟩⟩

/-- `Derivatives.__init__`: derive `num_points_r` from `r_vector`, compute
`log_factor = dr[1]/dr[0]`, check it against `dr[n-1]/dr[n-2]` (the assert
raises `configurationError` on mismatch), then build the five matrices in
program order. -/
def derivatives (r_vector dr_vector : List ℚ) : Except DerivErr DerivSet := do
  let num_points_r := r_vector.length
  let v1 ← vget dr_vector 1
  let v0 ← vget dr_vector 0
  let log_factor := v1 / v0
  let w1 ← vget dr_vector ((num_points_r : ℤ) - 1)
  let w0 ← vget dr_vector ((num_points_r : ℤ) - 2)
  let checkv := w1 / w0
  if log_factor = checkv then do
    let m1 ← get_first_derivative_matrix dr_vector num_points_r log_factor
    let m2 ← get_second_derivative_matrix dr_vector num_points_r log_factor
    let ml ← get_left_advection_derivative_matrix dr_vector num_points_r log_factor
    let mr ← get_right_advection_derivative_matrix dr_vector num_points_r log_factor
    let md ← get_dissipation_derivative_matrix dr_vector num_points_r log_factor
    pure ⟨m1, m2, ml, mr, md⟩
  else .error .configurationError

/-- Projection used to state entry-level facts about a successful
construction (the default is never reached in the theorems below, whose
hypotheses force success). -/
def getOk (e : Except DerivErr DerivSet) : DerivSet :=
  match e with
  | .ok d => d
  | .error _ => default

/-- True iff construction completed and returned the five matrices. -/
def constructionSucceeds (e : Except DerivErr DerivSet) : Bool :=
  match e with
  | .ok _ => true
  | .error _ => false

/-- The value `self.log_factor` computed in `__init__`. -/
def log_factor_of (dr : List ℚ) : ℚ := dr.getD 1 0 / dr.getD 0 0

lemma bind_ok_eq {α β : Type} (x : α) (f : α → Except DerivErr β) :
    (Except.ok x >>= f) = f x := rfl

lemma pure_eq {β : Type} (x : β) : (pure x : Except DerivErr β) = Except.ok x := rfl

lemma pyIdx_lt {n : ℕ} {i : ℤ} (h0 : 0 ≤ i) (h1 : i < (n : ℤ)) :
    pyIdx n i = some i.toNat := by
  unfold pyIdx
  rw [if_pos ⟨h0, h1⟩]

lemma pyIdx_isSome_of_lt {n : ℕ} {i : ℤ} (h0 : 0 ≤ i) (h1 : i < (n : ℤ)) :
    (pyIdx n i).isSome := by
  rw [pyIdx_lt h0 h1]; rfl

lemma pyIdx_some_inv {n : ℕ} {i : ℤ} {a : ℕ} (h0 : 0 ≤ i)
    (h : pyIdx n i = some a) : i = (a : ℤ) := by
  unfold pyIdx at h
  split_ifs at h with h1 h2
  · injection h with h3
    omega
  · omega

lemma vget_ok (xs : List ℚ) (i : ℤ) (a : ℕ) (h0 : 0 ≤ i)
    (h1 : i < (xs.length : ℤ)) (h2 : i.toNat = a) :
    vget xs i = .ok (xs.getD a 0) := by
  subst h2
  unfold vget
  rw [pyIdx_lt h0 h1]

lemma set_apply_ne {M : Mat} {a b : ℕ} {v : ℚ} {i j : ℕ}
    (h : ¬(i = a ∧ j = b)) : M.set a b v i j = M i j := by
  simp only [Mat.set]
  rw [if_neg h]

lemma applyWrites_eq_wfold (n : ℕ) (ws : List (ℤ × ℤ × ℚ)) :
    ∀ M : Mat, (∀ t ∈ ws, (pyIdx n t.1).isSome ∧ (pyIdx n t.2.1).isSome) →
      applyWrites n M ws = .ok (wfold n M ws) := by
  induction ws with
  | nil => intro M _; rfl
  | cons t ws ih =>
    intro M h
    obtain ⟨ti, tj, tv⟩ := t
    obtain ⟨h1, h2⟩ := h _ (List.mem_cons_self _ _)
    obtain ⟨a, ha⟩ := Option.isSome_iff_exists.mp h1
    obtain ⟨b, hb⟩ := Option.isSome_iff_exists.mp h2
    simp only [applyWrites, wfold, ha, hb]
    exact ih _ (fun t ht => h t (List.mem_cons_of_mem _ ht))

lemma wfold_apply_ne (n : ℕ) (ws : List (ℤ × ℤ × ℚ)) (i j : ℕ) :
    ∀ M : Mat, (∀ t ∈ ws, ¬(pyIdx n t.1 = some i ∧ pyIdx n t.2.1 = some j)) →
      wfold n M ws i j = M i j := by
  induction ws with
  | nil => intro M _; rfl
  | cons t ws ih =>
    intro M h
    obtain ⟨ti, tj, tv⟩ := t
    have ht := h _ (List.mem_cons_self _ _)
    cases ha : pyIdx n ti with
    | none =>
      simp only [wfold, ha]
      exact ih M (fun t htt => h t (List.mem_cons_of_mem _ htt))
    | some a =>
      cases hb : pyIdx n tj with
      | none =>
        simp only [wfold, ha, hb]
        exact ih M (fun t htt => h t (List.mem_cons_of_mem _ htt))
      | some b =>
        simp only [wfold, ha, hb]
        rw [ih _ (fun t htt => h t (List.mem_cons_of_mem _ htt))]
        apply set_apply_ne
        intro hab
        exact ht ⟨by rw [ha, hab.1], by rw [hb, hab.2]⟩

lemma zeroRows_eq_zfold (n : ℕ) (rs : List ℤ) :
    ∀ M : Mat, (∀ t ∈ rs, (pyIdx n t).isSome) →
      zeroRows n M rs = .ok (zfold n M rs) := by
  induction rs with
  | nil => intro M _; rfl
  | cons t rs ih =>
    intro M h
    obtain ⟨a, ha⟩ := Option.isSome_iff_exists.mp (h _ (List.mem_cons_self _ _))
    simp only [zeroRows, zfold, ha]
    exact ih _ (fun t ht => h t (List.mem_cons_of_mem _ ht))

lemma zfold_apply_ne (n : ℕ) (rs : List ℤ) (i j : ℕ) :
    ∀ M : Mat, (∀ t ∈ rs, pyIdx n t ≠ some i) → zfold n M rs i j = M i j := by
  induction rs with
  | nil => intro M _; rfl
  | cons t rs ih =>
    intro M h
    have ht := h _ (List.mem_cons_self _ _)
    cases ha : pyIdx n t with
    | none =>
      simp only [zfold, ha]
      exact ih M (fun t htt => h t (List.mem_cons_of_mem _ htt))
    | some a =>
      simp only [zfold, ha]
      rw [ih _ (fun t htt => h t (List.mem_cons_of_mem _ htt))]
      apply if_neg
      intro hia
      exact ht (by rw [ha, hia])

lemma zfold_apply_zero (n : ℕ) (rs : List ℤ) (i j : ℕ) :
    ∀ M : Mat, M i j = 0 → zfold n M rs i j = 0 := by
  induction rs with
  | nil => intro M h; exact h
  | cons t rs ih =>
    intro M h
    cases ha : pyIdx n t with
    | none =>
      simp only [zfold, ha]
      exact ih M h
    | some a =>
      simp only [zfold, ha]
      refine ih _ ?_
      simp only [Mat.zeroRow]
      split_ifs <;> simp [h]

lemma zfold_apply_mem (n : ℕ) (rs : List ℤ) (i j : ℕ) :
    ∀ M : Mat, (∃ t ∈ rs, pyIdx n t = some i) → zfold n M rs i j = 0 := by
  induction rs with
  | nil =>
    rintro M ⟨t, ht, _⟩
    simp at ht
  | cons u rs ih =>
    rintro M ⟨t, ht, hpt⟩
    rcases List.mem_cons.mp ht with rfl | ht2
    · simp only [zfold, hpt]
      refine zfold_apply_zero n rs i j _ ?_
      simp [Mat.zeroRow]
    · cases ha : pyIdx n u with
      | none =>
        simp only [zfold, ha]
        exact ih M ⟨t, ht2, hpt⟩
      | some a =>
        simp only [zfold, ha]
        exact ih _ ⟨t, ht2, hpt⟩

lemma build_d1_eq (dr : List ℚ) (n : ℕ) (c : ℚ) (hn : 7 ≤ n)
    (hlen : dr.length = n) :
    get_first_derivative_matrix dr n c =
      .ok (wfold n (d1_interior dr n c)
        (d1_boundary_writes n (1 / dr.getD (n - 1) 0) c)) := by
  have hv : vget dr ((n : ℤ) - 1) = .ok (dr.getD (n - 1) 0) :=
    vget_ok dr _ (n - 1) (by omega) (by omega) (by omega)
  simp only [get_first_derivative_matrix, hv, bind_ok_eq]
  apply applyWrites_eq_wfold
  intro t ht
  simp only [d1_boundary_writes, List.mem_cons, List.not_mem_nil, or_false] at ht
  rcases ht with rfl|rfl|rfl|rfl|rfl|rfl|rfl|rfl|rfl|rfl|rfl|rfl|rfl|rfl|rfl|rfl|rfl|rfl <;>
    refine ⟨pyIdx_isSome_of_lt ?_ ?_, pyIdx_isSome_of_lt ?_ ?_⟩ <;> dsimp only <;> omega

lemma build_d2_eq (dr : List ℚ) (n : ℕ) (c : ℚ) (hn : 7 ≤ n)
    (hlen : dr.length = n) :
    get_second_derivative_matrix dr n c =
      .ok (wfold n (d2_interior dr n c)
        (d2_boundary_writes n (1 / (dr.getD (n - 1) 0 * dr.getD (n - 1) 0)) c)) := by
  have hv : vget dr ((n : ℤ) - 1) = .ok (dr.getD (n - 1) 0) :=
    vget_ok dr _ (n - 1) (by omega) (by omega) (by omega)
  simp only [get_second_derivative_matrix, hv, bind_ok_eq]
  apply applyWrites_eq_wfold
  intro t ht
  simp only [d2_boundary_writes, List.mem_cons, List.not_mem_nil, or_false] at ht
  rcases ht with rfl|rfl|rfl|rfl|rfl|rfl|rfl|rfl|rfl|rfl|rfl|rfl|rfl|rfl|rfl|rfl|rfl|rfl <;>
    refine ⟨pyIdx_isSome_of_lt ?_ ?_, pyIdx_isSome_of_lt ?_ ?_⟩ <;> dsimp only <;> omega

lemma build_left_eq (dr : List ℚ) (n : ℕ) (c : ℚ) (hn : 7 ≤ n) :
    get_left_advection_derivative_matrix dr n c =
      .ok (zfold n (advec_left_interior dr n c) [0, 1, 2]) := by
  apply zeroRows_eq_zfold
  intro t ht
  simp only [List.mem_cons, List.not_mem_nil, or_false] at ht
  rcases ht with rfl|rfl|rfl <;>
    exact pyIdx_isSome_of_lt (by omega) (by omega)

lemma build_right_eq (dr : List ℚ) (n : ℕ) (c : ℚ) (hn : 7 ≤ n) :
    get_right_advection_derivative_matrix dr n c =
      .ok (zfold n (advec_right_interior dr n c)
        [(n : ℤ) - 3, (n : ℤ) - 2, (n : ℤ) - 1]) := by
  apply zeroRows_eq_zfold
  intro t ht
  simp only [List.mem_cons, List.not_mem_nil, or_false] at ht
  rcases ht with rfl|rfl|rfl <;>
    exact pyIdx_isSome_of_lt (by omega) (by omega)

lemma build_diss_eq (dr : List ℚ) (n : ℕ) (c : ℚ) (hn : 7 ≤ n)
    (hlen : dr.length = n) :
    get_dissipation_derivative_matrix dr n c =
      .ok (zfold n (diss_interior dr n c (dr.getD 3 0))
        [0, 1, 2, (n : ℤ) - 3, (n : ℤ) - 2, (n : ℤ) - 1]) := by
  have hv : vget dr (num_ghosts : ℤ) = .ok (dr.getD 3 0) := by
    show vget dr 3 = _
    exact vget_ok dr 3 3 (by omega) (by omega) (by omega)
  simp only [get_dissipation_derivative_matrix, hv, bind_ok_eq]
  apply zeroRows_eq_zfold
  intro t ht
  simp only [List.mem_cons, List.not_mem_nil, or_false] at ht
  rcases ht with rfl|rfl|rfl|rfl|rfl|rfl <;>
    exact pyIdx_isSome_of_lt (by omega) (by omega)

lemma derivatives_ok (r dr : List ℚ) (hn : 7 ≤ r.length)
    (hlen : dr.length = r.length)
    (hc : dr.getD 1 0 / dr.getD 0 0 =
      dr.getD (r.length - 1) 0 / dr.getD (r.length - 2) 0) :
    derivatives r dr = .ok
      { d1_matrix := wfold r.length (d1_interior dr r.length (log_factor_of dr))
          (d1_boundary_writes r.length (1 / dr.getD (r.length - 1) 0)
            (log_factor_of dr)),
        d2_matrix := wfold r.length (d2_interior dr r.length (log_factor_of dr))
          (d2_boundary_writes r.length
            (1 / (dr.getD (r.length - 1) 0 * dr.getD (r.length - 1) 0))
            (log_factor_of dr)),
        d_advec_matrix_left :=
          zfold r.length (advec_left_interior dr r.length (log_factor_of dr))
            [0, 1, 2],
        d_advec_matrix_right :=
          zfold r.length (advec_right_interior dr r.length (log_factor_of dr))
            [(r.length : ℤ) - 3, (r.length : ℤ) - 2, (r.length : ℤ) - 1],
        d_dissipation_matrix :=
          zfold r.length
            (diss_interior dr r.length (log_factor_of dr) (dr.getD 3 0))
            [0, 1, 2, (r.length : ℤ) - 3, (r.length : ℤ) - 2,
              (r.length : ℤ) - 1] } := by
  have hv1 : vget dr 1 = .ok (dr.getD 1 0) :=
    vget_ok dr 1 1 (by omega) (by omega) (by omega)
  have hv0 : vget dr 0 = .ok (dr.getD 0 0) :=
    vget_ok dr 0 0 (by omega) (by omega) (by omega)
  have hw1 : vget dr ((r.length : ℤ) - 1) = .ok (dr.getD (r.length - 1) 0) :=
    vget_ok dr _ (r.length - 1) (by omega) (by omega) (by omega)
  have hw0 : vget dr ((r.length : ℤ) - 2) = .ok (dr.getD (r.length - 2) 0) :=
    vget_ok dr _ (r.length - 2) (by omega) (by omega) (by omega)
  have hm1 := build_d1_eq dr r.length (dr.getD 1 0 / dr.getD 0 0) hn hlen
  have hm2 := build_d2_eq dr r.length (dr.getD 1 0 / dr.getD 0 0) hn hlen
  have hml := build_left_eq dr r.length (dr.getD 1 0 / dr.getD 0 0) hn
  have hmr := build_right_eq dr r.length (dr.getD 1 0 / dr.getD 0 0) hn
  have hmd := build_diss_eq dr r.length (dr.getD 1 0 / dr.getD 0 0) hn hlen
  simp only [derivatives, hv1, hv0, hw1, hw0, bind_ok_eq]
  rw [if_pos hc]
  simp only [hm1, hm2, hml, hmr, hmd, bind_ok_eq, pure_eq, log_factor_of]

lemma bind_error_eq {α β : Type} (e : DerivErr) (f : α → Except DerivErr β) :
    ((Except.error e : Except DerivErr α) >>= f) = .error e := rfl

lemma map_ok_eq {α β : Type} (g : α → β) (x : α) :
    (g <$> (Except.ok x : Except DerivErr α)) = .ok (g x) := rfl

lemma map_error_eq {α β : Type} (g : α → β) (e : DerivErr) :
    (g <$> (Except.error e : Except DerivErr α)) = .error e := rfl

lemma pyIdx_eq {n : ℕ} {i0 : ℤ} {a : ℕ} (h0 : 0 ≤ i0) (h1 : i0 < (n : ℤ))
    (h2 : i0.toNat = a) : pyIdx n i0 = some a := by
  subst h2
  exact pyIdx_lt h0 h1

lemma d1_interior_zero {dr : List ℚ} {n : ℕ} {c : ℚ} {i j : ℕ}
    (h : ¬(i ≤ j + 2 ∧ j ≤ i + 2)) : d1_interior dr n c i j = 0 := by
  simp only [d1_interior]
  split_ifs <;> first | rfl | (exfalso; omega)

lemma d2_interior_zero {dr : List ℚ} {n : ℕ} {c : ℚ} {i j : ℕ}
    (h : ¬(i ≤ j + 2 ∧ j ≤ i + 2)) : d2_interior dr n c i j = 0 := by
  simp only [d2_interior]
  split_ifs <;> first | rfl | (exfalso; omega)

lemma advec_left_interior_zero {dr : List ℚ} {n : ℕ} {c : ℚ} {i j : ℕ}
    (h : ¬(j ≤ i ∧ i ≤ j + 3)) : advec_left_interior dr n c i j = 0 := by
  simp only [advec_left_interior]
  split_ifs <;> first | rfl | (exfalso; omega)

lemma advec_right_interior_zero {dr : List ℚ} {n : ℕ} {c : ℚ} {i j : ℕ}
    (h : ¬(i ≤ j ∧ j ≤ i + 3)) : advec_right_interior dr n c i j = 0 := by
  simp only [advec_right_interior]
  split_ifs <;> first | rfl | (exfalso; omega)

lemma diss_interior_zero {dr : List ℚ} {n : ℕ} {c : ℚ} {drg : ℚ} {i j : ℕ}
    (h : ¬(i ≤ j + 3 ∧ j ≤ i + 3)) : diss_interior dr n c drg i j = 0 := by
  simp only [diss_interior]
  split_ifs <;> first | rfl | (exfalso; omega)

/-- Claim C1 (code divergence exhibit): on the geometric grid
dr = [1, 2, 4, 8, 16, 32, 64] (c = 2, N = 7), the overwritten boundary
rows of the first- and second-derivative matrices are scaled by the STALE
`one_over_h = 1/dr[6] = 1/64` (resp. `1/dr[6]^2`) left over from the last
interior-loop iteration, not by the row's own `1/dr[row]` as the spec
states: row 0 of d1 carries `C0 * (1/64)` instead of `C0 * (1/dr[0]) = C0`,
row 5 carries `Dm3 * (1/64)` instead of `Dm3 * (1/32)`, and row 0 of d2
carries `E0 * (1/64^2)` instead of `E0`. -/
theorem boundary_rows_use_stale_spacing :
    (getOk (derivatives [1, 2, 4, 8, 16, 32, 64] [1, 2, 4, 8, 16, 32, 64])).d1_matrix 0 0 =
        (advec_d1_stencil_right 2).getD 0 0 * (1 / 64) ∧
      (getOk (derivatives [1, 2, 4, 8, 16, 32, 64] [1, 2, 4, 8, 16, 32, 64])).d1_matrix 0 0 ≠
        (advec_d1_stencil_right 2).getD 0 0 * (1 / 1) ∧
      (getOk (derivatives [1, 2, 4, 8, 16, 32, 64] [1, 2, 4, 8, 16, 32, 64])).d1_matrix 5 2 =
        (advec_d1_stencil_left 2).getD 0 0 * (1 / 64) ∧
      (getOk (derivatives [1, 2, 4, 8, 16, 32, 64] [1, 2, 4, 8, 16, 32, 64])).d1_matrix 5 2 ≠
        (advec_d1_stencil_left 2).getD 0 0 * (1 / 32) ∧
      (getOk (derivatives [1, 2, 4, 8, 16, 32, 64] [1, 2, 4, 8, 16, 32, 64])).d2_matrix 0 0 =
        (advec_d2_stencil_right 2).getD 0 0 * (1 / (64 * 64)) ∧
      (getOk (derivatives [1, 2, 4, 8, 16, 32, 64] [1, 2, 4, 8, 16, 32, 64])).d2_matrix 0 0 ≠
        (advec_d2_stencil_right 2).getD 0 0 * (1 / (1 * 1)) := by
  have h := derivatives_ok [1, 2, 4, 8, 16, 32, 64] [1, 2, 4, 8, 16, 32, 64]
    (by norm_num) (by norm_num) (by norm_num)
  rw [h]
  simp only [getOk, log_factor_of]
  simp [wfold, d1_boundary_writes, d2_boundary_writes, pyIdx, Mat.set,
    Int.reduceToNat, d1_interior, d2_interior]
  norm_num [advec_d1_stencil_right, advec_d1_stencil_left, advec_d2_stencil_right,
    advec_d2_stencil_left, d1_stencil, d2_stencil]

/-- Claim C2 counterexample: a 6-point input (fewer than 7 points) with a
consistent ratio is NOT rejected — construction completes and returns the
five matrices, so no DomainSizeError (or any failure) occurs. -/
theorem small_domain_not_rejected :
    constructionSucceeds (derivatives [1, 1, 1, 1, 1, 1] [1, 1, 1, 1, 1, 1]) = true := by
  simp [derivatives, vget, pyIdx, bind_ok_eq, bind_error_eq, map_ok_eq, map_error_eq,
    get_first_derivative_matrix, get_second_derivative_matrix,
    get_left_advection_derivative_matrix, get_right_advection_derivative_matrix,
    get_dissipation_derivative_matrix, d1_boundary_writes, d2_boundary_writes,
    applyWrites, zeroRows, num_ghosts, constructionSucceeds, Int.reduceToNat]

/-- Claim C2 (amended): the code performs no domain-size check and has no
DomainSizeError; with a consistent ratio, construction at N = 6 succeeds
outright, while at N = 4 it fails only part-way through boundary-row
construction of the first-derivative matrix, with an index-out-of-range
error (the write to column 4). -/
theorem no_domain_size_check :
    constructionSucceeds (derivatives [1, 1, 1, 1, 1, 1] [1, 1, 1, 1, 1, 1]) = true ∧
      derivatives [1, 1, 1, 1] [1, 1, 1, 1] = .error .indexError := by
  constructor
  · simp [derivatives, vget, pyIdx, bind_ok_eq, bind_error_eq, map_ok_eq, map_error_eq,
      get_first_derivative_matrix, get_second_derivative_matrix,
      get_left_advection_derivative_matrix, get_right_advection_derivative_matrix,
      get_dissipation_derivative_matrix, d1_boundary_writes, d2_boundary_writes,
      applyWrites, zeroRows, num_ghosts, constructionSucceeds, Int.reduceToNat]
  · simp [derivatives, vget, pyIdx, bind_ok_eq, bind_error_eq, map_ok_eq, map_error_eq,
      get_first_derivative_matrix, d1_boundary_writes, applyWrites, Int.reduceToNat]

/-- Claim C3: for any spacing sequence of length N ≥ 4 (nonzero sampled
denominators, as spacings are positive) whose two sampled ratios
dr[1]/dr[0] and dr[N-1]/dr[N-2] differ, construction stops at the assert
with the configuration error and produces no matrices; the comparison is
exact equality of the two ratios. -/
theorem ratio_mismatch_rejected (r dr : List ℚ) (hn : 4 ≤ r.length)
    (hlen : dr.length = r.length)
    (h0 : dr.getD 0 0 ≠ 0) (h2 : dr.getD (r.length - 2) 0 ≠ 0)
    (hne : dr.getD 1 0 / dr.getD 0 0 ≠
      dr.getD (r.length - 1) 0 / dr.getD (r.length - 2) 0) :
    derivatives r dr = .error .configurationError := by
  have hv1 : vget dr 1 = .ok (dr.getD 1 0) :=
    vget_ok dr 1 1 (by omega) (by omega) (by omega)
  have hv0 : vget dr 0 = .ok (dr.getD 0 0) :=
    vget_ok dr 0 0 (by omega) (by omega) (by omega)
  have hw1 : vget dr ((r.length : ℤ) - 1) = .ok (dr.getD (r.length - 1) 0) :=
    vget_ok dr _ (r.length - 1) (by omega) (by omega) (by omega)
  have hw0 : vget dr ((r.length : ℤ) - 2) = .ok (dr.getD (r.length - 2) 0) :=
    vget_ok dr _ (r.length - 2) (by omega) (by omega) (by omega)
  simp only [derivatives, hv1, hv0, hw1, hw0, bind_ok_eq]
  rw [if_neg hne]

/-- Witness for C3: the spec's own example spacing [1, 2, 4, 100]
(ratios 2 and 25) is rejected with the configuration error. -/
theorem ratio_mismatch_rejected_witness :
    derivatives [0, 0, 0, 0] [1, 2, 4, 100] = .error .configurationError :=
  ratio_mismatch_rejected [0, 0, 0, 0] [1, 2, 4, 100]
    (by norm_num) (by norm_num) (by norm_num) (by norm_num) (by norm_num)

/-- Claim C4: at grid ratio c = 1 the centered first-derivative stencil is
the classical [1, -8, 0, 8, -1]/12, the centered second-derivative stencil
is [-1, 16, -30, 16, -1]/12, and the four one-sided stencils and the
7-point dissipation kernel are the classical constant-spacing weights;
the defining rational expressions are evaluated uniformly at c = 1 (the
definitions contain no branch on c). -/
theorem uniform_grid_classical_stencils :
    d1_stencil 1 = [1 / 12, -8 / 12, 0, 8 / 12, -1 / 12] ∧
      d2_stencil 1 = [-1 / 12, 16 / 12, -30 / 12, 16 / 12, -1 / 12] ∧
      advec_d1_stencil_right 1 = [-11 / 6, 3, -3 / 2, 1 / 3] ∧
      advec_d1_stencil_left 1 = [-1 / 3, 3 / 2, -3, 11 / 6] ∧
      advec_d2_stencil_right 1 = [2, -5, 4, -1] ∧
      advec_d2_stencil_left 1 = [-1, 4, -5, 2] ∧
      dissipation_derivative_stencil 1 = [1, -6, 15, -20, 15, -6, 1] := by
  norm_num [d1_stencil, d2_stencil, advec_d1_stencil_right, advec_d1_stencil_left,
    advec_d2_stencil_right, advec_d2_stencil_left, dissipation_derivative_stencil]

/-- Claim C5: for every valid input of length N ≥ 7 (consistent sampled
ratios), rows 0, 1, 2 of the left-advection matrix, rows N-3, N-2, N-1 of
the right-advection matrix, and rows 0, 1, 2 and N-3, N-2, N-1 of the
dissipation matrix are entirely zero. -/
theorem advection_dissipation_boundary_rows_zero (r dr : List ℚ) (i j : ℕ)
    (hn : 7 ≤ r.length) (hlen : dr.length = r.length)
    (hc : dr.getD 1 0 / dr.getD 0 0 =
      dr.getD (r.length - 1) 0 / dr.getD (r.length - 2) 0) :
    (i ≤ 2 → (getOk (derivatives r dr)).d_advec_matrix_left i j = 0) ∧
      (r.length - 3 ≤ i ∧ i < r.length →
        (getOk (derivatives r dr)).d_advec_matrix_right i j = 0) ∧
      (i ≤ 2 ∨ (r.length - 3 ≤ i ∧ i < r.length) →
        (getOk (derivatives r dr)).d_dissipation_matrix i j = 0) := by
  have h := derivatives_ok r dr hn hlen hc
  rw [h]
  simp only [getOk]
  refine ⟨?_, ?_, ?_⟩
  · intro hi
    refine zfold_apply_mem _ _ _ _ _ ?_
    interval_cases i
    · exact ⟨0, by simp, pyIdx_eq (by omega) (by omega) (by omega)⟩
    · exact ⟨1, by simp, pyIdx_eq (by omega) (by omega) (by omega)⟩
    · exact ⟨2, by simp, pyIdx_eq (by omega) (by omega) (by omega)⟩
  · intro hi
    refine zfold_apply_mem _ _ _ _ _ ?_
    have h3 : i = r.length - 3 ∨ i = r.length - 2 ∨ i = r.length - 1 := by omega
    rcases h3 with rfl | rfl | rfl
    · exact ⟨(r.length : ℤ) - 3, by simp, pyIdx_eq (by omega) (by omega) (by omega)⟩
    · exact ⟨(r.length : ℤ) - 2, by simp, pyIdx_eq (by omega) (by omega) (by omega)⟩
    · exact ⟨(r.length : ℤ) - 1, by simp, pyIdx_eq (by omega) (by omega) (by omega)⟩
  · intro hi
    refine zfold_apply_mem _ _ _ _ _ ?_
    have h6 : i = 0 ∨ i = 1 ∨ i = 2 ∨ i = r.length - 3 ∨ i = r.length - 2 ∨
        i = r.length - 1 := by omega
    rcases h6 with rfl | rfl | rfl | rfl | rfl | rfl
    · exact ⟨0, by simp, pyIdx_eq (by omega) (by omega) (by omega)⟩
    · exact ⟨1, by simp, pyIdx_eq (by omega) (by omega) (by omega)⟩
    · exact ⟨2, by simp, pyIdx_eq (by omega) (by omega) (by omega)⟩
    · exact ⟨(r.length : ℤ) - 3, by simp, pyIdx_eq (by omega) (by omega) (by omega)⟩
    · exact ⟨(r.length : ℤ) - 2, by simp, pyIdx_eq (by omega) (by omega) (by omega)⟩
    · exact ⟨(r.length : ℤ) - 1, by simp, pyIdx_eq (by omega) (by omega) (by omega)⟩

/-- Witness for C5 at dr = [1, 2, 4, 8, 16, 32, 64] (N = 7): row 1 of the
left-advection matrix, row 5 of the right-advection matrix and row 5 of
the dissipation matrix vanish. -/
theorem advection_dissipation_boundary_rows_zero_witness :
    (getOk (derivatives [1, 2, 4, 8, 16, 32, 64]
      [1, 2, 4, 8, 16, 32, 64])).d_advec_matrix_left 1 4 = 0 ∧
      (getOk (derivatives [1, 2, 4, 8, 16, 32, 64]
        [1, 2, 4, 8, 16, 32, 64])).d_advec_matrix_right 5 2 = 0 ∧
      (getOk (derivatives [1, 2, 4, 8, 16, 32, 64]
        [1, 2, 4, 8, 16, 32, 64])).d_dissipation_matrix 5 2 = 0 := by
  have hA := advection_dissipation_boundary_rows_zero [1, 2, 4, 8, 16, 32, 64]
    [1, 2, 4, 8, 16, 32, 64] 1 4 (by norm_num) (by norm_num) (by norm_num)
  have hB := advection_dissipation_boundary_rows_zero [1, 2, 4, 8, 16, 32, 64]
    [1, 2, 4, 8, 16, 32, 64] 5 2 (by norm_num) (by norm_num) (by norm_num)
  exact ⟨hA.1 (by norm_num), hB.2.1 (by norm_num), hB.2.2 (by norm_num)⟩

/-- Claim C6: outside the declared stencil support (the centered band
-2..+2 together with the one-sided boundary-row bands 0..+3 at rows 0, 1
and -3..0 at rows N-2, N-1 for the two centered operators; -3..0 for left
advection; 0..+3 for right advection; -3..+3 for dissipation) every matrix
entry is exactly zero, for every valid input of length N ≥ 7. -/
theorem banded_support (r dr : List ℚ) (i j : ℕ) (hn : 7 ≤ r.length)
    (hlen : dr.length = r.length)
    (hc : dr.getD 1 0 / dr.getD 0 0 =
      dr.getD (r.length - 1) 0 / dr.getD (r.length - 2) 0) :
    (¬((i ≤ j + 2 ∧ j ≤ i + 2) ∨ (i ≤ 1 ∧ i ≤ j ∧ j ≤ i + 3) ∨
        (r.length - 2 ≤ i ∧ j ≤ i ∧ i ≤ j + 3)) →
      (getOk (derivatives r dr)).d1_matrix i j = 0 ∧
        (getOk (derivatives r dr)).d2_matrix i j = 0) ∧
      (¬(j ≤ i ∧ i ≤ j + 3) →
        (getOk (derivatives r dr)).d_advec_matrix_left i j = 0) ∧
      (¬(i ≤ j ∧ j ≤ i + 3) →
        (getOk (derivatives r dr)).d_advec_matrix_right i j = 0) ∧
      (¬(i ≤ j + 3 ∧ j ≤ i + 3) →
        (getOk (derivatives r dr)).d_dissipation_matrix i j = 0) := by
  have h := derivatives_ok r dr hn hlen hc
  rw [h]
  simp only [getOk]
  refine ⟨?_, ?_, ?_, ?_⟩
  · intro hout
    constructor
    · have hwr : ∀ t ∈ d1_boundary_writes r.length
          (1 / dr.getD (r.length - 1) 0) (log_factor_of dr),
          ¬(pyIdx r.length t.1 = some i ∧ pyIdx r.length t.2.1 = some j) := by
        intro t ht
        simp only [d1_boundary_writes, List.mem_cons, List.not_mem_nil, or_false] at ht
        rcases ht with rfl|rfl|rfl|rfl|rfl|rfl|rfl|rfl|rfl|rfl|rfl|rfl|rfl|rfl|rfl|rfl|rfl|rfl <;>
          · dsimp only
            rintro ⟨h1, h2⟩
            have e1 := pyIdx_some_inv (by omega) h1
            have e2 := pyIdx_some_inv (by omega) h2
            omega
      exact (wfold_apply_ne _ _ _ _ _ hwr).trans (d1_interior_zero (by omega))
    · have hwr : ∀ t ∈ d2_boundary_writes r.length
          (1 / (dr.getD (r.length - 1) 0 * dr.getD (r.length - 1) 0))
          (log_factor_of dr),
          ¬(pyIdx r.length t.1 = some i ∧ pyIdx r.length t.2.1 = some j) := by
        intro t ht
        simp only [d2_boundary_writes, List.mem_cons, List.not_mem_nil, or_false] at ht
        rcases ht with rfl|rfl|rfl|rfl|rfl|rfl|rfl|rfl|rfl|rfl|rfl|rfl|rfl|rfl|rfl|rfl|rfl|rfl <;>
          · dsimp only
            rintro ⟨h1, h2⟩
            have e1 := pyIdx_some_inv (by omega) h1
            have e2 := pyIdx_some_inv (by omega) h2
            omega
      exact (wfold_apply_ne _ _ _ _ _ hwr).trans (d2_interior_zero (by omega))
  · intro hout
    by_cases hi : i ≤ 2
    · refine zfold_apply_mem _ _ _ _ _ ?_
      interval_cases i
      · exact ⟨0, by simp, pyIdx_eq (by omega) (by omega) (by omega)⟩
      · exact ⟨1, by simp, pyIdx_eq (by omega) (by omega) (by omega)⟩
      · exact ⟨2, by simp, pyIdx_eq (by omega) (by omega) (by omega)⟩
    · have hwr : ∀ t ∈ [(0 : ℤ), 1, 2], pyIdx r.length t ≠ some i := by
        intro t ht
        simp only [List.mem_cons, List.not_mem_nil, or_false] at ht
        rcases ht with rfl | rfl | rfl <;>
          · intro h1
            have := pyIdx_some_inv (by omega) h1
            omega
      exact (zfold_apply_ne _ _ _ _ _ hwr).trans (advec_left_interior_zero (by omega))
  · intro hout
    by_cases hi : r.length - 3 ≤ i ∧ i < r.length
    · refine zfold_apply_mem _ _ _ _ _ ?_
      have h3 : i = r.length - 3 ∨ i = r.length - 2 ∨ i = r.length - 1 := by omega
      rcases h3 with rfl | rfl | rfl
      · exact ⟨(r.length : ℤ) - 3, by simp, pyIdx_eq (by omega) (by omega) (by omega)⟩
      · exact ⟨(r.length : ℤ) - 2, by simp, pyIdx_eq (by omega) (by omega) (by omega)⟩
      · exact ⟨(r.length : ℤ) - 1, by simp, pyIdx_eq (by omega) (by omega) (by omega)⟩
    · have hwr : ∀ t ∈ [(r.length : ℤ) - 3, (r.length : ℤ) - 2, (r.length : ℤ) - 1],
          pyIdx r.length t ≠ some i := by
        intro t ht
        simp only [List.mem_cons, List.not_mem_nil, or_false] at ht
        rcases ht with rfl | rfl | rfl <;>
          · intro h1
            have := pyIdx_some_inv (by omega) h1
            omega
      exact (zfold_apply_ne _ _ _ _ _ hwr).trans (advec_right_interior_zero (by omega))
  · intro hout
    by_cases hi : i ≤ 2 ∨ (r.length - 3 ≤ i ∧ i < r.length)
    · refine zfold_apply_mem _ _ _ _ _ ?_
      have h6 : i = 0 ∨ i = 1 ∨ i = 2 ∨ i = r.length - 3 ∨ i = r.length - 2 ∨
          i = r.length - 1 := by omega
      rcases h6 with rfl | rfl | rfl | rfl | rfl | rfl
      · exact ⟨0, by simp, pyIdx_eq (by omega) (by omega) (by omega)⟩
      · exact ⟨1, by simp, pyIdx_eq (by omega) (by omega) (by omega)⟩
      · exact ⟨2, by simp, pyIdx_eq (by omega) (by omega) (by omega)⟩
      · exact ⟨(r.length : ℤ) - 3, by simp, pyIdx_eq (by omega) (by omega) (by omega)⟩
      · exact ⟨(r.length : ℤ) - 2, by simp, pyIdx_eq (by omega) (by omega) (by omega)⟩
      · exact ⟨(r.length : ℤ) - 1, by simp, pyIdx_eq (by omega) (by omega) (by omega)⟩
    · have hwr : ∀ t ∈ [(0 : ℤ), 1, 2, (r.length : ℤ) - 3, (r.length : ℤ) - 2,
          (r.length : ℤ) - 1], pyIdx r.length t ≠ some i := by
        intro t ht
        simp only [List.mem_cons, List.not_mem_nil, or_false] at ht
        rcases ht with rfl | rfl | rfl | rfl | rfl | rfl <;>
          · intro h1
            have := pyIdx_some_inv (by omega) h1
            omega
      exact (zfold_apply_ne _ _ _ _ _ hwr).trans (diss_interior_zero (by omega))

/-- Witness for C6 at dr = [1, 2, 4, 8, 16, 32, 64] (N = 7): the entry
(0, 6) lies outside every operator's support and is zero in all five
matrices. -/
theorem banded_support_witness :
    (getOk (derivatives [1, 2, 4, 8, 16, 32, 64]
      [1, 2, 4, 8, 16, 32, 64])).d1_matrix 0 6 = 0 ∧
      (getOk (derivatives [1, 2, 4, 8, 16, 32, 64]
        [1, 2, 4, 8, 16, 32, 64])).d2_matrix 0 6 = 0 ∧
      (getOk (derivatives [1, 2, 4, 8, 16, 32, 64]
        [1, 2, 4, 8, 16, 32, 64])).d_advec_matrix_left 0 6 = 0 ∧
      (getOk (derivatives [1, 2, 4, 8, 16, 32, 64]
        [1, 2, 4, 8, 16, 32, 64])).d_advec_matrix_right 0 6 = 0 ∧
      (getOk (derivatives [1, 2, 4, 8, 16, 32, 64]
        [1, 2, 4, 8, 16, 32, 64])).d_dissipation_matrix 0 6 = 0 := by
  have h := banded_support [1, 2, 4, 8, 16, 32, 64] [1, 2, 4, 8, 16, 32, 64] 0 6
    (by norm_num) (by norm_num) (by norm_num)
  obtain ⟨h1, h2, h3, h4⟩ := h
  have hd := h1 (by norm_num)
  exact ⟨hd.1, hd.2, h2 (by norm_num), h3 (by norm_num), h4 (by norm_num)⟩

set_option maxHeartbeats 2000000 in
/-- Claim C7: for every valid input of length N ≥ 7 and every interior row
i (3 ≤ i ≤ N-4) of the dissipation matrix, the entry at column i + k
(k = -3..3) is the k-th 7-point dissipation stencil coefficient times the
normalization (dr[num_ghosts]/dr[i])^6 / 64. -/
theorem dissipation_interior_scaling (r dr : List ℚ) (i : ℕ)
    (hn : 7 ≤ r.length) (hlen : dr.length = r.length)
    (hc : dr.getD 1 0 / dr.getD 0 0 =
      dr.getD (r.length - 1) 0 / dr.getD (r.length - 2) 0)
    (hi3 : 3 ≤ i) (hi4 : i + 4 ≤ r.length) :
    (getOk (derivatives r dr)).d_dissipation_matrix i (i - 3) =
        (dissipation_derivative_stencil (log_factor_of dr)).getD 0 0 *
          ((dr.getD num_ghosts 0 / dr.getD i 0) ^ 6 / 64) ∧
      (getOk (derivatives r dr)).d_dissipation_matrix i (i - 2) =
        (dissipation_derivative_stencil (log_factor_of dr)).getD 1 0 *
          ((dr.getD num_ghosts 0 / dr.getD i 0) ^ 6 / 64) ∧
      (getOk (derivatives r dr)).d_dissipation_matrix i (i - 1) =
        (dissipation_derivative_stencil (log_factor_of dr)).getD 2 0 *
          ((dr.getD num_ghosts 0 / dr.getD i 0) ^ 6 / 64) ∧
      (getOk (derivatives r dr)).d_dissipation_matrix i i =
        (dissipation_derivative_stencil (log_factor_of dr)).getD 3 0 *
          ((dr.getD num_ghosts 0 / dr.getD i 0) ^ 6 / 64) ∧
      (getOk (derivatives r dr)).d_dissipation_matrix i (i + 1) =
        (dissipation_derivative_stencil (log_factor_of dr)).getD 4 0 *
          ((dr.getD num_ghosts 0 / dr.getD i 0) ^ 6 / 64) ∧
      (getOk (derivatives r dr)).d_dissipation_matrix i (i + 2) =
        (dissipation_derivative_stencil (log_factor_of dr)).getD 5 0 *
          ((dr.getD num_ghosts 0 / dr.getD i 0) ^ 6 / 64) ∧
      (getOk (derivatives r dr)).d_dissipation_matrix i (i + 3) =
        (dissipation_derivative_stencil (log_factor_of dr)).getD 6 0 *
          ((dr.getD num_ghosts 0 / dr.getD i 0) ^ 6 / 64) := by
  have h := derivatives_ok r dr hn hlen hc
  rw [h]
  simp only [getOk]
  have hz : ∀ t ∈ [(0 : ℤ), 1, 2, (r.length : ℤ) - 3, (r.length : ℤ) - 2,
      (r.length : ℤ) - 1], pyIdx r.length t ≠ some i := by
    intro t ht
    simp only [List.mem_cons, List.not_mem_nil, or_false] at ht
    rcases ht with rfl | rfl | rfl | rfl | rfl | rfl <;>
      · intro h1
        have := pyIdx_some_inv (by omega) h1
        omega
  refine ⟨?_, ?_, ?_, ?_, ?_, ?_, ?_⟩ <;>
    · rw [zfold_apply_ne _ _ _ _ _ hz]
      simp only [diss_interior]
      split_ifs <;> first | rfl | (exfalso; omega)

/-- Witness for C7 at dr = [1, 2, 4, 8, 16, 32, 64] (N = 7), interior row
i = 3. -/
theorem dissipation_interior_scaling_witness :
    (getOk (derivatives [1, 2, 4, 8, 16, 32, 64]
      [1, 2, 4, 8, 16, 32, 64])).d_dissipation_matrix 3 0 =
        (dissipation_derivative_stencil
          (log_factor_of [1, 2, 4, 8, 16, 32, 64])).getD 0 0 *
          (([1, 2, 4, 8, 16, 32, 64].getD num_ghosts 0 /
            [1, 2, 4, 8, 16, 32, 64].getD 3 0) ^ 6 / 64) ∧
      (getOk (derivatives [1, 2, 4, 8, 16, 32, 64]
        [1, 2, 4, 8, 16, 32, 64])).d_dissipation_matrix 3 6 =
        (dissipation_derivative_stencil
          (log_factor_of [1, 2, 4, 8, 16, 32, 64])).getD 6 0 *
          (([1, 2, 4, 8, 16, 32, 64].getD num_ghosts 0 /
            [1, 2, 4, 8, 16, 32, 64].getD 3 0) ^ 6 / 64) := by
  have h := dissipation_interior_scaling [1, 2, 4, 8, 16, 32, 64]
    [1, 2, 4, 8, 16, 32, 64] 3 (by norm_num) (by norm_num) (by norm_num)
    (by norm_num) (by norm_num)
  exact ⟨h.1, h.2.2.2.2.2.2⟩

/-- Claim C8: construction is deterministic — two runs on identical inputs
(r_vector, dr_vector) return identical results, all five matrices
included. -/
theorem construction_deterministic (r1 dr1 r2 dr2 : List ℚ)
    (hr : r1 = r2) (hdr : dr1 = dr2) :
    derivatives r1 dr1 = derivatives r2 dr2 := by
  subst hr
  subst hdr
  rfl

/-- Witness for C8 at a concrete input. -/
theorem construction_deterministic_witness :
    derivatives [1, 2, 4, 8, 16, 32, 64] [1, 2, 4, 8, 16, 32, 64] =
      derivatives [1, 2, 4, 8, 16, 32, 64] [1, 2, 4, 8, 16, 32, 64] :=
  construction_deterministic [1, 2, 4, 8, 16, 32, 64] [1, 2, 4, 8, 16, 32, 64]
    [1, 2, 4, 8, 16, 32, 64] [1, 2, 4, 8, 16, 32, 64] rfl rfl

/-- Claim C9: for every spacing sequence of length N ≥ 7 whose sampled
ratios agree and whose entries are nonzero, construction of all five
matrices completes: every checked read of dr_vector (including the
ghost-reference read at index num_ghosts = 3) and every checked matrix
write lands inside [0, N-1], so no out-of-range access occurs. -/
theorem construction_total_in_bounds (r dr : List ℚ) (hn : 7 ≤ r.length)
    (hlen : dr.length = r.length) (hnz : ∀ x ∈ dr, x ≠ 0)
    (hc : dr.getD 1 0 / dr.getD 0 0 =
      dr.getD (r.length - 1) 0 / dr.getD (r.length - 2) 0) :
    constructionSucceeds (derivatives r dr) = true := by
  rw [derivatives_ok r dr hn hlen hc]
  rfl

/-- Witness for C9 at dr = [1, 2, 4, 8, 16, 32, 64] (N = 7). -/
theorem construction_total_in_bounds_witness :
    constructionSucceeds (derivatives [1, 2, 4, 8, 16, 32, 64]
      [1, 2, 4, 8, 16, 32, 64]) = true :=
  construction_total_in_bounds [1, 2, 4, 8, 16, 32, 64] [1, 2, 4, 8, 16, 32, 64]
    (by norm_num) (by norm_num) (by norm_num) (by norm_num)

/-- Claim C10: for a length-2 spacing sequence with nonzero first entry
the ratio check compares dr[1]/dr[0] against the same quotient and always
passes: construction never raises the ratio-not-constant (configuration)
error there — it proceeds and fails later with an index error during
matrix construction — so the N ≥ 4 minimum is not enforced by the check
itself. -/
theorem length_two_passes_ratio_check (r dr : List ℚ) (hr : r.length = 2)
    (hdr : dr.length = 2) (h0 : dr.getD 0 0 ≠ 0) :
    derivatives r dr = .error .indexError ∧
      derivatives r dr ≠ .error .configurationError := by
  obtain ⟨a, b, rfl⟩ := List.length_eq_two.mp hdr
  have key : derivatives r [a, b] = .error .indexError := by
    simp only [derivatives, hr]
    norm_num [vget, pyIdx, bind_ok_eq, bind_error_eq, map_ok_eq, map_error_eq,
      get_first_derivative_matrix, d1_boundary_writes, applyWrites]
  refine ⟨key, ?_⟩
  rw [key]
  simp

/-- Witness for C10 at r = [0, 0], dr = [1, 2]. -/
theorem length_two_passes_ratio_check_witness :
    derivatives [0, 0] [1, 2] = .error .indexError ∧
      derivatives [0, 0] [1, 2] ≠ .error .configurationError :=
  length_two_passes_ratio_check [0, 0] [1, 2] (by norm_num) (by norm_num)
    (by norm_num)

end Engrenage
